import Mathlib

/-!
Shallow embedding of the storage-access layer in `lobster/se.py`.

Paths and strings are modelled as `List Char`; Python helpers
(`os.path.join`, `str.replace(old, new, 1)`, `str.split()`) are
translated directly.  External effects (the filesystem, the chirp
client, subprocesses, `random.shuffle`) are passed in as function
parameters; a raised exception is modelled as `Option`/`Except`
failure.
-/

deriving instance DecidableEq for Except

namespace Lobster

/-- The apostrophe character, used by several error-message formats. -/
def quoteChar : Char := Char.ofNat 39

/-- Python `s.replace(old, "", 1)`: remove the first occurrence of
`pat` from `s`; `s` unchanged when `pat` does not occur.  An empty
`pat` occurs at position 0, so removal is a no-op. -/
def removeFirst : List Char → List Char → List Char
  | [], _ => []
  | c :: rest, pat =>
    if pat.isPrefixOf (c :: rest) then (c :: rest).drop pat.length
    else c :: removeFirst rest pat

/-- Two-argument `os.path.join` (posix): the right part wins when
absolute; otherwise a separator is inserted unless the left part is
empty or already ends with one. -/
def osPathJoin (a b : List Char) : List Char :=
  if b.head? = some '/' then b
  else if a.isEmpty || a.getLast? = some '/' then a ++ b
  else a ++ '/' :: b

/-- `StorageElement.lfn2pfn`: join the backend path stub with the
logical path after stripping a single leading slash. -/
def lfn2pfn (pfnpre path : List Char) : List Char :=
  if path.head? = some '/' then osPathJoin pfnpre (path.drop 1)
  else osPathJoin pfnpre path

/-- The inner `pfn2lfn` of `StorageElement.fixresult`:
`p.replace(self._pfnprefix, "", 1)`. -/
def pfn2lfn (pfnpre p : List Char) : List Char := removeFirst p pfnpre

/-- A Python value returned by a backend operation: a path string, a
sequence of path strings, or any non-iterable value (bool, int, ...). -/
inductive PyResult where
  | str : List Char → PyResult
  | strs : List (List Char) → PyResult
  | other : Int → PyResult
deriving DecidableEq

/-- `StorageElement.fixresult`: strings get the stub stripped, iterables
get it stripped element-wise, anything else passes through. -/
def fixresult (pfnpre : List Char) : PyResult → PyResult
  | .str s => .str (pfn2lfn pfnpre s)
  | .strs l => .strs (l.map (pfn2lfn pfnpre))
  | .other n => .other n

/- ### Round-trip lemmas -/

theorem removeFirst_nil_pat (s : List Char) : removeFirst s [] = s := by
  cases s with
  | nil => rfl
  | cons c rest => simp [removeFirst, List.isPrefixOf]

theorem removeFirst_of_pre (p t : List Char) (hp : p ≠ []) :
    removeFirst (p ++ t) p = t := by
  cases h : p ++ t with
  | nil =>
      cases p with
      | nil => exact absurd rfl hp
      | cons c r => simp at h
  | cons c rest =>
      rw [removeFirst]
      rw [← h]
      have hpre : p.isPrefixOf (p ++ t) = true := by
        rw [List.isPrefixOf_iff_prefix]
        exact List.prefix_append p t
      rw [if_pos hpre, List.drop_left]

/-- C1 (amended, part 1): for a nonempty stub not ending in the
separator and a logical path rooted at a single slash, the
pfn-to-lfn translation inverts the lfn-to-pfn translation. -/
theorem roundtrip_nonempty (pre L : List Char) (hp : pre ≠ [])
    (hp2 : pre.getLast? ≠ some '/') (hL : L.head? = some '/')
    (hL2 : L.tail.head? ≠ some '/') :
    pfn2lfn pre (lfn2pfn pre L) = L := by
  cases L with
  | nil => simp at hL
  | cons c rest =>
    have hc : c = '/' := by simpa using hL
    subst hc
    have hjoin : lfn2pfn pre ('/' :: rest) = pre ++ '/' :: rest := by
      have hrest : rest.head? ≠ some '/' := by simpa using hL2
      rw [lfn2pfn, if_pos (by simp), List.drop_one, List.tail_cons, osPathJoin,
        if_neg hrest, if_neg]
      simp [hp, hp2]
    rw [hjoin, pfn2lfn, removeFirst_of_pre pre ('/' :: rest) hp]

/- ### The dispatcher (`StorageElement.__getattr__`) -/

/-- A registered backend as the dispatcher sees it: its path stub and,
for each attribute name, the operation obtained by `getattr` applied to
a physical path.  `none` models any raised exception (missing
attribute, unreachable backend, path not found): the bare `except` of
`switch` treats them all alike. -/
structure BackendM where
  pfnpre : List Char
  op : List Char → List Char → Option PyResult

/-- The message of the `AttributeError` raised when no backend works:
`"no path resolution found for '{path}'"`. -/
def noResolutionMsg (path : List Char) : List Char :=
  "no path resolution found for ".toList ++ quoteChar :: (path ++ [quoteChar])

/-- The `switch` closure built by `StorageElement.__getattr__`: try each
registered system in order, translating the logical path in and the
result back out; raise when every backend fails. -/
def switch (attr : List Char) (systems : List BackendM) (path : List Char) :
    Except (List Char) PyResult :=
  match systems with
  | [] => .error (noResolutionMsg path)
  | b :: rest =>
    match b.op attr (lfn2pfn b.pfnpre path) with
    | some r => .ok (fixresult b.pfnpre r)
    | none => switch attr rest path

/-- How many backends `switch` invokes for one call. -/
def switchCalls (attr : List Char) (systems : List BackendM) (path : List Char) :
    Nat :=
  match systems with
  | [] => 0
  | b :: rest =>
    match b.op attr (lfn2pfn b.pfnpre path) with
    | some _ => 1
    | none => 1 + switchCalls attr rest path

/-- Boolean substring test over character lists. -/
def hasSub : List Char → List Char → Bool
  | [], pat => pat.isEmpty
  | c :: rest, pat => pat.isPrefixOf (c :: rest) || hasSub rest pat

theorem hasSub_append (a pat b : List Char) :
    hasSub (a ++ (pat ++ b)) pat = true := by
  induction a with
  | nil =>
      cases h : pat ++ b with
      | nil =>
          rcases List.append_eq_nil.mp h with ⟨h1, _⟩
          simp [h1, hasSub]
      | cons c rest =>
          simp only [List.nil_append, h, hasSub]
          rw [← h]
          have hpre : pat.isPrefixOf (pat ++ b) = true := by
            rw [List.isPrefixOf_iff_prefix]
            exact List.prefix_append pat b
          simp [hpre]
  | cons c a ih =>
      have hstep : hasSub (c :: (a ++ (pat ++ b))) pat
          = (pat.isPrefixOf (c :: (a ++ (pat ++ b))) || hasSub (a ++ (pat ++ b)) pat) :=
        rfl
      rw [List.cons_append, hstep, ih, Bool.or_true]

theorem switch_all_fail (attr path : List Char) (systems : List BackendM)
    (hfail : ∀ b ∈ systems, b.op attr (lfn2pfn b.pfnpre path) = none) :
    switch attr systems path = .error (noResolutionMsg path) := by
  induction systems with
  | nil => rfl
  | cons b rest ih =>
      have hb : b.op attr (lfn2pfn b.pfnpre path) = none :=
        hfail b (List.mem_cons_self b rest)
      rw [switch, hb]
      exact ih (fun b2 hb2 => hfail b2 (List.mem_cons_of_mem b hb2))

/- ### Sample backends used to instantiate the dispatch theorems -/

/-- A backend that fails every call. -/
def failB : BackendM := ⟨"/p".toList, fun _ _ => none⟩

/-- A backend that answers every call with the physical path it was
given. -/
def okB : BackendM := ⟨"/data".toList, fun _ pfn => some (.str pfn)⟩

/-- A backend after the succeeding one; it would answer if invoked. -/
def postB : BackendM := ⟨"/q".toList, fun _ _ => some (.other 7)⟩

end Lobster

namespace Lobster

/- ### Class-level registry state, `store`, `reset`, `default` -/

/-- The class-level mutable state of `StorageElement`: the active
`_systems` list and the `_defaults` snapshot.  Both live on the base
class, so one value of this type is shared by the whole hierarchy. -/
structure RegState where
  systems : List BackendM
  defaults : List BackendM

/-- `StorageElement.reset`: clear the active list. -/
def seReset (s : RegState) : RegState := { s with systems := [] }

/-- `StorageElement.store`: snapshot the active list as the default. -/
def seStore (s : RegState) : RegState := { s with defaults := s.systems }

/-- `StorageElement.default`, the scoped override: save the active
list, swap in the default snapshot, run the body, and restore the
saved list in a `finally` — whether or not the body produced an
error.  A body is any state transformer that may also return an
error value (`some e` models an exception escaping the scope). -/
def withDefault {E : Type} (body : RegState → RegState × Option E)
    (s : RegState) : RegState × Option E :=
  let tmp := s.systems
  let r := body { s with systems := s.defaults }
  ({ r.1 with systems := tmp }, r.2)

/- ### Registration as a constructor side effect (`__init__`) -/

/-- A constructed `StorageElement` as far as registration is concerned:
its master flag and its path stub (`none` when constructed without
one). -/
structure SEInstance where
  master : Bool
  pfnpre : Option (List Char)
deriving DecidableEq

/-- `StorageElement.__init__` acting on the shared class-level systems
list: a non-`none` stub appends the new instance; no stub makes a
non-registered master (dispatch proxy). -/
def seInit (stub : Option (List Char)) (systems : List SEInstance) :
    SEInstance × List SEInstance :=
  match stub with
  | some p => (⟨false, some p⟩, systems ++ [⟨false, some p⟩])
  | none => (⟨true, none⟩, systems)

/-- `Local.__init__` (default stub is the empty string). -/
def localNew (systems : List SEInstance) (p : List Char := []) :
    SEInstance × List SEInstance :=
  seInit (some p) systems

/-- `Chirp.__init__` (the server only parameterises the client). -/
def chirpNew (_server p : List Char) (systems : List SEInstance) :
    SEInstance × List SEInstance :=
  seInit (some p) systems

/-- `SRM.__init__` (registered with the whole srm URL as its stub). -/
def srmNew (url : List Char) (systems : List SEInstance) :
    SEInstance × List SEInstance :=
  seInit (some url) systems

/-- `Hadoop.__init__` (default stub `/hadoop`). -/
def hadoopNew (systems : List SEInstance) (p : List Char := "/hadoop".toList) :
    SEInstance × List SEInstance :=
  seInit (some p) systems

/- ### Chirp `isdir` / `isfile` -/

/-- `Chirp.isdir`: the chirp client's `ls` result (`none` models a
raised `IOError`) has at least one entry. -/
def chirpIsdir (lsC : List Char → Option (List (List Char)))
    (path : List Char) : Option Bool :=
  (lsC path).map (fun l => decide (0 < l.length))

/-- `Chirp.isfile`: the chirp client's `ls` result is empty. -/
def chirpIsfile (lsC : List Char → Option (List (List Char)))
    (path : List Char) : Option Bool :=
  (lsC path).map (fun l => decide (l.length = 0))

/- ### `StorageConfiguration` URL handling -/

/-- One character of the `[a-z]+` protocol group of `__url_re`. -/
def isLowerAZ (c : Char) : Bool := 'a' ≤ c && c ≤ 'z'

/-- One character of the `[^/]*` server group of `__url_re`. -/
def notSlash (c : Char) : Bool := c != '/'

/-- `__url_re.match(url).groups()` for
`^([a-z]+)://([^/]*)(.*)/?$`: a maximal nonempty lower-case protocol,
the literal separator, a maximal slash-free server, and the greedy
remainder (the trailing `/?` always matches the empty string).
`none` models a failed match (`.groups()` then raises). -/
def parseUrl (url : List Char) : Option (List Char × List Char × List Char) :=
  let protocol := url.takeWhile isLowerAZ
  let rest := url.dropWhile isLowerAZ
  if protocol.isEmpty then none
  else if rest.take 3 = [ ':', '/', '/' ] then
    some (protocol, (rest.drop 3).takeWhile notSlash,
      (rest.drop 3).dropWhile notSlash)
  else none

/-- One character of the trailing `[A-Za-z0-9_\-]+` group of
`__site_re`. -/
def siteChar (c : Char) : Bool := c.isAlpha || c.isDigit || c = '_' || c = '-'

/-- `__site_re.match(server)` for
`^T[0123]_(?:[A-Z]{2}_)?[A-Za-z0-9_\-]+$` as a total predicate: the
optional country-code group is subsumed by the final character class,
so the pattern matches exactly `T`, a tier digit, `_`, and a nonempty
word/hyphen tail. -/
def siteMatch (s : List Char) : Bool :=
  match s with
  | 'T' :: d :: '_' :: rest =>
      (d = '0' || d = '1' || d = '2' || d = '3')
        && !rest.isEmpty && rest.all siteChar
  | _ => false

/-- The `__protocols` shorthand table. -/
def protoExpand (p : List Char) : Option (List Char) :=
  if p = "srm".toList then some "srmv2".toList
  else if p = "root".toList then some "xrootd".toList
  else none

/-- `StorageConfiguration._expand_site`.  When the server is a site
label and the protocol has a shorthand, the source rewrites the path
through `_find_match`, which parses an external SITECONF rule file;
that external branch (and a url the regex rejects, which raises) is
`none` here.  Otherwise the source returns
`"{protocol}://{server}{path}/"`. -/
def expandSite? (url : List Char) : Option (List Char) :=
  match parseUrl url with
  | none => none
  | some (protocol, server, path) =>
    if siteMatch server && (protoExpand protocol).isSome then none
    else some (protocol ++ ':' :: '/' :: '/' :: (server ++ (path ++ [ '/' ])))

theorem break_takeWhile (q : Char → Bool) (a b : List Char)
    (ha : a.all q = true) (hb : ∀ c, b.head? = some c → q c = false) :
    (a ++ b).takeWhile q = a ∧ (a ++ b).dropWhile q = b := by
  induction a with
  | nil =>
      rw [List.nil_append]
      cases b with
      | nil => exact ⟨rfl, rfl⟩
      | cons c r =>
          have hc := hb c rfl
          rw [List.takeWhile_cons, List.dropWhile_cons, hc]
          exact ⟨rfl, rfl⟩
  | cons x a ih =>
      rw [List.all_cons, Bool.and_eq_true] at ha
      have ih2 := ih ha.2
      rw [List.cons_append, List.takeWhile_cons, List.dropWhile_cons, ha.1]
      simp only [if_true]
      exact ⟨by rw [ih2.1], ih2.2⟩

theorem parseUrl_decomp {url p s t : List Char}
    (h : parseUrl url = some (p, s, t)) :
    url = p ++ ':' :: '/' :: '/' :: (s ++ t)
    ∧ p ≠ [] ∧ p.all isLowerAZ = true
    ∧ s.all notSlash = true
    ∧ (∀ c, t.head? = some c → notSlash c = false) := by
  unfold parseUrl at h
  by_cases h1 : (url.takeWhile isLowerAZ).isEmpty
  · rw [if_pos h1] at h
    exact absurd h (by simp)
  · rw [if_neg h1] at h
    by_cases h2 : (url.dropWhile isLowerAZ).take 3 = [ ':', '/', '/' ]
    · rw [if_pos h2] at h
      simp only [Option.some.injEq, Prod.mk.injEq] at h
      obtain ⟨hp, hs, ht⟩ := h
      refine ⟨?_, ?_, ?_, ?_, ?_⟩
      · calc url = url.takeWhile isLowerAZ ++ url.dropWhile isLowerAZ :=
              (List.takeWhile_append_dropWhile isLowerAZ url).symm
          _ = p ++ ((url.dropWhile isLowerAZ).take 3
              ++ (url.dropWhile isLowerAZ).drop 3) := by
              rw [hp, List.take_append_drop]
          _ = p ++ ':' :: '/' :: '/' :: (s ++ t) := by
              rw [h2, ← hs, ← ht, List.takeWhile_append_dropWhile]
              rfl
      · intro hnil
        rw [hp, hnil] at h1
        simp at h1
      · rw [← hp]
        exact List.all_takeWhile
      · rw [← hs]
        exact List.all_takeWhile
      · intro c hc
        have hd := List.head?_dropWhile_not notSlash
          ((url.dropWhile isLowerAZ).drop 3)
        rw [ht, hc] at hd
        simpa using hd
    · rw [if_neg h2] at h
      exact absurd h (by simp)

theorem parseUrl_append_slash {url p s t : List Char}
    (h : parseUrl url = some (p, s, t)) :
    parseUrl (url ++ [ '/' ]) = some (p, s, t ++ [ '/' ]) := by
  obtain ⟨hurl, hpn, hpl, hsl, hth⟩ := parseUrl_decomp h
  have hdec : url ++ [ '/' ]
      = p ++ ':' :: '/' :: '/' :: (s ++ (t ++ [ '/' ])) := by
    rw [hurl]
    simp [List.append_assoc]
  have h1 := break_takeWhile isLowerAZ p
    (':' :: '/' :: '/' :: (s ++ (t ++ [ '/' ]))) hpl
    (by
      intro c hc
      simp only [List.head?_cons, Option.some.injEq] at hc
      subst hc
      decide)
  have h2 := break_takeWhile notSlash s (t ++ [ '/' ]) hsl
    (by
      intro c hc
      cases t with
      | nil =>
          simp only [List.nil_append, List.head?_cons, Option.some.injEq] at hc
          subst hc
          decide
      | cons d r =>
          simp only [List.cons_append, List.head?_cons, Option.some.injEq] at hc
          subst hc
          exact hth _ rfl)
  rw [hdec]
  unfold parseUrl
  rw [h1.1, h1.2]
  rw [if_neg (by simpa using hpn)]
  rw [if_pos (by rfl)]
  have hdrop : (':' :: '/' :: '/' :: (s ++ (t ++ [ '/' ]))).drop 3
      = s ++ (t ++ [ '/' ]) := rfl
  rw [hdrop, h2.1, h2.2]

/- ### `StorageConfiguration.local` -/

inductive LocalErr where
  /-- `IOError("Can't create LFN without local storage access")`. -/
  | noAccess
  /-- `__url_re` rejected a URL, so `.groups()` raised. -/
  | badUrl
deriving DecidableEq

/-- The scan loop of `StorageConfiguration.local` over
`self.__input + self.__output`: parse each URL, skip those whose
protocol is not `file`, join the URL's path group with the filename,
return the first join for which `os.path.isfile` (the `isfile`
parameter) holds, and raise when the loop finishes. -/
def localScan (isfile : List Char → Bool) (filename : List Char) :
    List (List Char) → Except LocalErr (List Char)
  | [] => .error .noAccess
  | url :: rest =>
    match parseUrl url with
    | none => .error .badUrl
    | some (protocol, _server, path) =>
      if protocol = "file".toList then
        if isfile (osPathJoin path filename) then .ok (osPathJoin path filename)
        else localScan isfile filename rest
      else localScan isfile filename rest

/-- `StorageConfiguration.local(filename)`: the scan over the input
URLs followed by the output URLs. -/
def localMethod (isfile : List Char → Bool)
    (input output : List (List Char)) (filename : List Char) :
    Except LocalErr (List Char) :=
  localScan isfile filename (input ++ output)

/-- The behaviour C7 claims, written from the spec's words: find the
FIRST URL whose protocol is the local-filesystem protocol, join its
path with the filename, return that join if the file exists, and
otherwise fail at once with the no-local-storage-access error. -/
def localClaimed (isfile : List Char → Bool)
    (input output : List (List Char)) (filename : List Char) :
    Except LocalErr (List Char) :=
  match (input ++ output).find? (fun url =>
      match parseUrl url with
      | some (protocol, _, _) => protocol = "file".toList
      | none => false) with
  | none => .error .noAccess
  | some url =>
    match parseUrl url with
    | none => .error .badUrl
    | some (_, _, path) =>
      if isfile (osPathJoin path filename) then .ok (osPathJoin path filename)
      else .error .noAccess

/- ### `SRM.execute` / `SRM.remove` -/

/-- Python `str.split()`: split on whitespace runs, dropping empty
pieces. -/
def pySplitAux : List Char → List Char → List (List Char)
  | [], acc => if acc.isEmpty then [] else [acc.reverse]
  | c :: rest, acc =>
    if c.isWhitespace then
      (if acc.isEmpty then pySplitAux rest []
       else acc.reverse :: pySplitAux rest [])
    else pySplitAux rest (c :: acc)

def pySplit (s : List Char) : List (List Char) := pySplitAux s []

/-- The observable outcome of one subprocess invocation: exit status
and the two captured streams. -/
structure ProcResult where
  returncode : Int
  stdoutData : List Char
  stderrData : List Char
deriving DecidableEq

inductive SRMErr where
  /-- The `IOError` raised on an unexpected nonzero exit status. -/
  | ioError : List Char → SRMErr
  /-- `AttributeError("srm utilities not available")` when launching
  the subprocess raises `OSError`. -/
  | attrError
  /-- `cmds[0]` on an empty split result raises `IndexError`. -/
  | indexError
deriving DecidableEq

def spaceJoin : List (List Char) → List Char
  | [] => []
  | [x] => x
  | x :: rest => x ++ ' ' :: spaceJoin rest

/-- The argument vector `['lcg-' + cmds[0]] + cmds[1:] +
['-b', '-D', 'srmv2', path]`; `none` when the command splits to
nothing. -/
def srmArgs? (cmd path : List Char) : Option (List (List Char)) :=
  match pySplit cmd with
  | [] => none
  | c0 :: restc =>
    some (("lcg-".toList ++ c0)
      :: restc ++ ["-b".toList, "-D".toList, "srmv2".toList, path])

/-- `"Failed to execute '{args}':\n{stderr}\n{stdout}"`. -/
def failureMsg (args : List (List Char)) (p : ProcResult) : List Char :=
  "Failed to execute ".toList ++ quoteChar :: (spaceJoin args ++ [quoteChar])
    ++ ':' :: '\n' :: (p.stderrData ++ '\n' :: p.stdoutData)

/-- `SRM.execute`: run the external client (`run` yields `none` on
`OSError`, otherwise the process outcome); a nonzero exit raises
`IOError` with the captured streams unless `safe` is set; otherwise
the captured stdout is returned. -/
def srmExecute (run : List (List Char) → Option ProcResult)
    (cmd path : List Char) (safe : Bool) : Except SRMErr (List Char) :=
  match srmArgs? cmd path with
  | none => .error .indexError
  | some args =>
    match run args with
    | none => .error .attrError
    | some p =>
      if p.returncode != 0 && !safe then .error (.ioError (failureMsg args p))
      else .ok p.stdoutData

/-- `SRM.remove`: `self.execute('del', path, safe=True)`, result
discarded. -/
def srmRemove (run : List (List Char) → Option ProcResult)
    (path : List Char) : Except SRMErr Unit :=
  (srmExecute run "del".toList path true).map (fun _ => ())

/- ### `StorageConfiguration.preprocess` -/

/-- The storage-configuration state `preprocess` reads and may shuffle:
URL lists and flags.  Shuffling is modelled by explicit permutation
functions passed to `preprocess`. -/
structure SCState where
  input : List (List Char)
  output : List (List Char)
  shuffleInputs : Bool
  shuffleOutputs : Bool
  noStreaming : Bool

/-- The keys `preprocess` sets in the task-parameter dict. -/
structure TaskParams where
  input : List (List Char)
  output : List (List Char)
  disableStreaming : Bool

/-- `StorageConfiguration.preprocess`: shuffle the input list when
shuffle-inputs is set, shuffle the output list when shuffle-outputs is
set or this is a merge with shuffle-inputs set; then fill the task
parameters (the input key gets the output list on a merge). -/
def preprocess (shufI shufO : List (List Char) → List (List Char))
    (s : SCState) (merge : Bool) : SCState × TaskParams :=
  let inp := if s.shuffleInputs then shufI s.input else s.input
  let outp := if s.shuffleOutputs || (s.shuffleInputs && merge)
    then shufO s.output else s.output
  ({ s with input := inp, output := outp },
   { input := if merge then outp else inp,
     output := outp,
     disableStreaming := s.noStreaming })

/-- C1 (corrected).  The round trip is the identity for a backend whose
stub is nonempty and does not end in the separator, on LFNs rooted at a
single leading slash; for the Local backend's default empty stub the
round trip instead drops the leading slash (see the counterexample). -/
theorem c1_lfn_pfn_roundtrip :
    (∀ pre L : List Char, pre ≠ [] → pre.getLast? ≠ some '/' →
      L.head? = some '/' → L.tail.head? ≠ some '/' →
      pfn2lfn pre (lfn2pfn pre L) = L)
    ∧ (∀ L : List Char, L.head? = some '/' →
      pfn2lfn [] (lfn2pfn [] L) = L.tail) := by
  constructor
  · exact roundtrip_nonempty
  · intro L hL
    cases L with
    | nil => simp at hL
    | cons c rest =>
        have hc : c = '/' := by simpa using hL
        subst hc
        have hjoin : lfn2pfn [] ('/' :: rest) = rest := by
          rw [lfn2pfn, if_pos (by simp), List.drop_one, List.tail_cons]
          unfold osPathJoin
          cases hr : rest.head? <;> simp_all
        rw [hjoin, pfn2lfn, removeFirst_nil_pat, List.tail_cons]

/-- C1 counterexample: with the Local backend's default empty path
stub, translating the valid LFN `/a.txt` to a PFN and back yields
`a.txt`, not `/a.txt`: the round trip is not the identity for every
registered backend. -/
theorem c1_counterexample :
    pfn2lfn [] (lfn2pfn [] "/a.txt".toList) = "a.txt".toList
    ∧ "a.txt".toList ≠ "/a.txt".toList := by decide

/-- C1 witness: the round trip at stub `/data/in` on LFN `/a.txt`, and
the empty-stub behaviour at `/b`. -/
theorem c1_witness :
    pfn2lfn "/data/in".toList (lfn2pfn "/data/in".toList "/a.txt".toList)
      = "/a.txt".toList
    ∧ pfn2lfn [] (lfn2pfn [] "/b".toList) = "/b".toList.tail := by
  constructor
  · exact c1_lfn_pfn_roundtrip.1 "/data/in".toList "/a.txt".toList
      (by decide) (by decide) (by decide) (by decide)
  · exact c1_lfn_pfn_roundtrip.2 "/b".toList (by decide)

/-- C2 (confirmed).  If the backends before position i all fail on the
translated path and backend i succeeds with result r, the dispatcher
returns r translated back to logical form by backend i's `fixresult`,
and exactly i+1 backends are invoked: the backends after i are never
called. -/
theorem c2_first_success (attr path : List Char) (pre post : List BackendM)
    (b : BackendM) (r : PyResult)
    (hfail : ∀ b2 ∈ pre, b2.op attr (lfn2pfn b2.pfnpre path) = none)
    (hok : b.op attr (lfn2pfn b.pfnpre path) = some r) :
    switch attr (pre ++ b :: post) path = .ok (fixresult b.pfnpre r)
    ∧ switchCalls attr (pre ++ b :: post) path = pre.length + 1 := by
  induction pre with
  | nil =>
      rw [List.nil_append]
      constructor
      · rw [switch, hok]
      · rw [switchCalls, hok, List.length_nil]
  | cons a rest ih =>
      have ha : a.op attr (lfn2pfn a.pfnpre path) = none :=
        hfail a (List.mem_cons_self a rest)
      have ihh := ih (fun b2 hb2 => hfail b2 (List.mem_cons_of_mem a hb2))
      have hstep : switch attr ((a :: rest) ++ b :: post) path
          = switch attr (rest ++ b :: post) path := by
        rw [List.cons_append, switch, ha]
      have hcalls : switchCalls attr ((a :: rest) ++ b :: post) path
          = 1 + switchCalls attr (rest ++ b :: post) path := by
        rw [List.cons_append, switchCalls, ha]
      constructor
      · rw [hstep]
        exact ihh.1
      · rw [hcalls, ihh.2, List.length_cons]
        omega

/-- C2 witness: a failing backend, then a succeeding one, then one that
is never reached; the dispatcher returns the second backend's result
with its stub `/data` stripped, after invoking exactly two backends. -/
theorem c2_witness :
    switch "exists".toList [failB, okB, postB] "/x".toList
      = .ok (.str "/x".toList)
    ∧ switchCalls "exists".toList [failB, okB, postB] "/x".toList = 2 := by
  have h := c2_first_success "exists".toList "/x".toList [failB] [postB] okB
    (.str "/data/x".toList)
    (by
      intro b2 hb2
      rw [List.mem_singleton] at hb2
      subst hb2
      rfl)
    (by decide)
  rw [List.singleton_append] at h
  constructor
  · rw [h.1]
    decide
  · rw [h.2]
    rfl

/-- C4 (corrected).  When every registered backend fails, the
dispatcher raises a single error whose message contains the logical
path; the message does not name the attempted operation (see the
counterexample). -/
theorem c4_all_fail (attr path : List Char) (systems : List BackendM)
    (hfail : ∀ b ∈ systems, b.op attr (lfn2pfn b.pfnpre path) = none) :
    switch attr systems path = .error (noResolutionMsg path)
    ∧ hasSub (noResolutionMsg path) path = true := by
  refine ⟨switch_all_fail attr path systems hfail, ?_⟩
  have h := hasSub_append ("no path resolution found for ".toList ++ [quoteChar])
    path [quoteChar]
  simpa [noResolutionMsg, List.append_assoc] using h

/-- C4 counterexample: a call to operation `exists` on path `/x` with
one (failing) registered backend raises the message
`no path resolution found for '/x'`, and the operation name `exists`
does not occur anywhere in that message. -/
theorem c4_counterexample :
    switch "exists".toList [failB] "/x".toList
      = .error (noResolutionMsg "/x".toList)
    ∧ hasSub (noResolutionMsg "/x".toList) "exists".toList = false := by
  decide

/-- C4 witness: the amended statement at operation `getsize`, path
`/y`, with one failing backend. -/
theorem c4_witness :
    switch "getsize".toList [failB] "/y".toList
      = .error (noResolutionMsg "/y".toList)
    ∧ hasSub (noResolutionMsg "/y".toList) "/y".toList = true := by
  exact c4_all_fail "getsize".toList "/y".toList [failB]
    (by
      intro b hb
      rw [List.mem_singleton] at hb
      subst hb
      rfl)

/-- C3 (corrected).  On an already-concrete URL (server not a site
label, or protocol without a shorthand), each application of
`_expand_site` appends one more trailing separator: the first
application returns the URL plus `/`, and a second application returns
the URL plus `//`, so expansion is not idempotent there. -/
theorem c3_expand_appends (url p s t : List Char)
    (h : parseUrl url = some (p, s, t))
    (hns : (siteMatch s && (protoExpand p).isSome) = false) :
    expandSite? url = some (url ++ [ '/' ])
    ∧ expandSite? (url ++ [ '/' ]) = some (url ++ [ '/', '/' ])
    ∧ url ++ [ '/', '/' ] ≠ url ++ [ '/' ] := by
  obtain ⟨hurl, _, _, _, _⟩ := parseUrl_decomp h
  have h2 := parseUrl_append_slash h
  refine ⟨?_, ?_, ?_⟩
  · rw [expandSite?.eq_def, h]
    simp only [hns, Bool.false_eq_true, if_false]
    rw [hurl]
    simp [List.append_assoc]
  · rw [expandSite?.eq_def, h2]
    simp only [hns, Bool.false_eq_true, if_false]
    rw [hurl]
    simp [List.append_assoc]
  · simp

/-- C3 counterexample: the concrete URL `file://host/data` expands to
`file://host/data/`, and expanding that again yields
`file://host/data//`, which differs: `expand(expand(url))` is not
`expand(url)` even though the server `host` is no site label. -/
theorem c3_counterexample :
    expandSite? "file://host/data".toList = some "file://host/data/".toList
    ∧ expandSite? "file://host/data/".toList
        = some "file://host/data//".toList
    ∧ some "file://host/data//".toList ≠ some "file://host/data/".toList := by
  refine ⟨by decide, by decide, by decide⟩

/-- C3 witness: the amended statement applied at `root://host/data`
(the `root` shorthand is known but the server is not a site label). -/
theorem c3_witness :
    expandSite? "root://host/data".toList = some "root://host/data/".toList
    ∧ expandSite? "root://host/data/".toList
        = some "root://host/data//".toList := by
  have h := c3_expand_appends "root://host/data".toList "root".toList
    "host".toList "/data".toList (by decide) (by decide)
  constructor
  · have h1 := h.1
    rw [h1]
    decide
  · have h2 := h.2.1
    have hs : "root://host/data/".toList
        = "root://host/data".toList ++ [ '/' ] := by decide
    rw [hs, h2]
    decide

/-- C5 (confirmed).  The scoped override runs its body on the stored
default snapshot and reinstates the pre-override active set on exit:
unconditionally, and in particular both when the body completes
normally (`none`) and when it raises (`some e`). -/
theorem c5_default_restores {E : Type} (body : RegState → RegState × Option E)
    (s : RegState) :
    (withDefault body s).1.systems = s.systems
    ∧ (withDefault body s).2 = (body { s with systems := s.defaults }).2
    ∧ ((withDefault body s).2 = none →
        (withDefault body s).1.systems = s.systems)
    ∧ (∀ e, (withDefault body s).2 = some e →
        (withDefault body s).1.systems = s.systems) := by
  refine ⟨rfl, rfl, fun _ => rfl, fun _ _ => rfl⟩

/-- C5 witness: a normally-completing body and an error-raising body,
over the state with active set `[failB]` and default snapshot `[okB]`;
both leave `[failB]` active again. -/
theorem c5_witness :
    (withDefault (fun st => (st, (none : Option Unit)))
      ⟨[failB], [okB]⟩).1.systems = [failB]
    ∧ (withDefault (fun _ => (⟨[], []⟩, some ()))
      ⟨[failB], [okB]⟩).1.systems = [failB] := by
  constructor
  · exact (c5_default_restores (fun st => (st, (none : Option Unit)))
      ⟨[failB], [okB]⟩).2.2.1 rfl
  · exact (c5_default_restores (fun _ => (⟨[], []⟩, some ()))
      ⟨[failB], [okB]⟩).2.2.2 () rfl

/-- C6 (confirmed).  With both shuffle flags off, `preprocess` leaves
both URL lists untouched, sets the input key to the output list on a
merge and to the unshuffled input list otherwise, sets the output key
to the output list, and copies the streaming-disabled flag. -/
theorem c6_preprocess (shufI shufO : List (List Char) → List (List Char))
    (s : SCState) (merge : Bool) (h1 : s.shuffleInputs = false)
    (h2 : s.shuffleOutputs = false) :
    (preprocess shufI shufO s merge).1 = s
    ∧ (preprocess shufI shufO s merge).2.input
        = (if merge then s.output else s.input)
    ∧ (preprocess shufI shufO s merge).2.output = s.output
    ∧ (preprocess shufI shufO s merge).2.disableStreaming = s.noStreaming := by
  obtain ⟨i, o, si, so, ns⟩ := s
  simp only at h1 h2
  subst h1 h2
  simp [preprocess]

/-- C6 witness: concrete lists with reversal as the would-be shuffle,
for both a merge and a non-merge task. -/
theorem c6_witness :
    (preprocess List.reverse List.reverse
      ⟨["file://h/i".toList], ["file://h/o".toList], false, false, true⟩
      false).2.input = ["file://h/i".toList]
    ∧ (preprocess List.reverse List.reverse
      ⟨["file://h/i".toList], ["file://h/o".toList], false, false, true⟩
      true).2.input = ["file://h/o".toList] := by
  constructor
  · have h := c6_preprocess List.reverse List.reverse
      ⟨["file://h/i".toList], ["file://h/o".toList], false, false, true⟩
      false rfl rfl
    simpa using h.2.1
  · have h := c6_preprocess List.reverse List.reverse
      ⟨["file://h/i".toList], ["file://h/o".toList], false, false, true⟩
      true rfl rfl
    simpa using h.2.1

/-- C9 (confirmed).  Construction is a registration side effect on the
one shared systems list: every subclass constructor (Local, Chirp, SRM,
Hadoop) passes a non-`none` stub and appends the new instance to the
shared list threaded through `seInit`; constructing the base class with
no stub leaves the list unchanged and yields a master dispatch
proxy. -/
theorem c9_registration :
    (∀ p systems, (seInit (some p) systems).2
        = systems ++ [(seInit (some p) systems).1]
      ∧ (seInit (some p) systems).1.master = false
      ∧ (seInit (some p) systems).1.pfnpre = some p)
    ∧ (∀ systems p, (localNew systems p).2
        = systems ++ [(localNew systems p).1])
    ∧ (∀ server p systems, (chirpNew server p systems).2
        = systems ++ [(chirpNew server p systems).1])
    ∧ (∀ url systems, (srmNew url systems).2
        = systems ++ [(srmNew url systems).1])
    ∧ (∀ systems p, (hadoopNew systems p).2
        = systems ++ [(hadoopNew systems p).1])
    ∧ (∀ systems, (seInit none systems).2 = systems
      ∧ (seInit none systems).1.master = true) := by
  refine ⟨?_, ?_, ?_, ?_, ?_, ?_⟩ <;>
    intros <;>
    simp [seInit, localNew, chirpNew, srmNew, hadoopNew]

/-- C10 (confirmed).  For any path whose chirp listing succeeds, isdir
is exactly "the listing is non-empty", isfile is its boolean
complement "the listing is empty", and an empty listing (an existing
empty directory) is classified as a file. -/
theorem c10_chirp_isdir_isfile (lsC : List Char → Option (List (List Char)))
    (path : List Char) (l : List (List Char)) (h : lsC path = some l) :
    chirpIsdir lsC path = some (decide (0 < l.length))
    ∧ chirpIsfile lsC path = some (!decide (0 < l.length))
    ∧ (l = [] → chirpIsdir lsC path = some false
        ∧ chirpIsfile lsC path = some true) := by
  refine ⟨?_, ?_, ?_⟩
  · simp [chirpIsdir, h]
  · simp only [chirpIsfile, h, Option.map_some]
    cases l <;> simp
  · intro hl
    subst hl
    simp [chirpIsdir, chirpIsfile, h]

/-- C7 (corrected).  The scan over input URLs then output URLs returns
the joined path of the first file-protocol URL whose join exists
locally; it does NOT stop at the first file-protocol URL.  It raises
the no-local-storage-access error only when no parsed URL has protocol
`file` with an existing joined file. -/
theorem c7_local_scan :
    (∀ (isfile : List Char → Bool) (filename : List Char)
      (pre post : List (List Char)) (url p s t : List Char),
      (∀ u ∈ pre, ∃ p2 s2 t2, parseUrl u = some (p2, s2, t2)
        ∧ (p2 = "file".toList → isfile (osPathJoin t2 filename) = false)) →
      parseUrl url = some (p, s, t) → p = "file".toList →
      isfile (osPathJoin t filename) = true →
      localScan isfile filename (pre ++ url :: post)
        = .ok (osPathJoin t filename))
    ∧ (∀ (isfile : List Char → Bool) (filename : List Char)
      (urls : List (List Char)),
      (∀ u ∈ urls, ∃ p2 s2 t2, parseUrl u = some (p2, s2, t2)
        ∧ (p2 = "file".toList → isfile (osPathJoin t2 filename) = false)) →
      localScan isfile filename urls = .error .noAccess) := by
  constructor
  · intro isfile filename pre post url p s t hpre hurl hfile hex
    induction pre with
    | nil =>
        rw [List.nil_append]
        simp only [localScan]
        rw [hurl]
        subst hfile
        simp [hex]
    | cons u pre ih =>
        obtain ⟨p2, s2, t2, hu, himp⟩ := hpre u (List.mem_cons_self u pre)
        have ih2 := ih (fun v hv => hpre v (List.mem_cons_of_mem u hv))
        rw [List.cons_append]
        simp only [localScan]
        rw [hu]
        by_cases hp2 : p2 = "file".toList
        · simp [hp2, himp hp2, ih2]
        · simp [ih2]
          intro hpf
          exact absurd hpf (by simpa using hp2)
  · intro isfile filename urls hall
    induction urls with
    | nil => rfl
    | cons u rest ih =>
        obtain ⟨p2, s2, t2, hu, himp⟩ := hall u (List.mem_cons_self u rest)
        have ih2 := ih (fun v hv => hall v (List.mem_cons_of_mem u hv))
        simp only [localScan]
        rw [hu]
        by_cases hp2 : p2 = "file".toList
        · simp [hp2, himp hp2, ih2]
        · simp [ih2]
          intro hpf
          exact absurd hpf (by simpa using hp2)

/-- C7 counterexample: two file-protocol input URLs where the file
exists only under the second.  The first file-protocol URL is
`file://h/p1` and its join `/p1/f` does not exist, yet `local` does
not fail: it returns `/p2/f` from the second URL, while the claimed
first-URL-decides behaviour (`localClaimed`) fails. -/
theorem c7_counterexample :
    localMethod (fun fn => fn == "/p2/f".toList)
      ("file://h/p1".toList :: "file://h/p2".toList :: []) [] "f".toList
      = .ok "/p2/f".toList
    ∧ localClaimed (fun fn => fn == "/p2/f".toList)
      ("file://h/p1".toList :: "file://h/p2".toList :: []) [] "f".toList
      = .error .noAccess
    ∧ (fun fn => fn == "/p2/f".toList) (osPathJoin "/p1".toList "f".toList)
      = false := by
  refine ⟨by decide, by decide, by decide⟩

/-- C7 witness: the amended statement at the counterexample's input
list, and the all-fail error case for a lone file URL without the
file. -/
theorem c7_witness :
    localScan (fun fn => fn == "/p2/f".toList) "f".toList
      ("file://h/p1".toList :: "file://h/p2".toList :: [])
      = .ok "/p2/f".toList
    ∧ localScan (fun _ => false) "f".toList ("file://h/p1".toList :: [])
      = .error .noAccess := by
  constructor
  · have h := c7_local_scan.1 (fun fn => fn == "/p2/f".toList) "f".toList
      ["file://h/p1".toList] [] "file://h/p2".toList "file".toList
      "h".toList "/p2".toList
      (by
        intro u hu
        rw [List.mem_singleton] at hu
        subst hu
        exact ⟨"file".toList, "h".toList, "/p1".toList, by decide,
          fun _ => by decide⟩)
      (by decide) rfl (by decide)
    rw [List.singleton_append] at h
    rw [h]
    decide
  · exact c7_local_scan.2 (fun _ => false) "f".toList
      ["file://h/p1".toList]
      (by
        intro u hu
        rw [List.mem_singleton] at hu
        subst hu
        exact ⟨"file".toList, "h".toList, "/p1".toList, by decide,
          fun _ => rfl⟩)

/-- C8 (confirmed).  A grid-broker `remove` whose external client runs
and exits nonzero does not raise, because `remove` passes
`safe=True`; an `execute` not marked safe turns the same nonzero exit
into an `IOError` carrying the joined command line and both captured
streams. -/
theorem c8_safe_flag :
    (∀ (run : List (List Char) → Option ProcResult) (path : List Char)
      (p : ProcResult),
      run ("lcg-del".toList :: "-b".toList :: "-D".toList :: "srmv2".toList
        :: path :: []) = some p →
      p.returncode ≠ 0 →
      srmRemove run path = .ok ())
    ∧ (∀ (run : List (List Char) → Option ProcResult)
      (cmd path : List Char) (args : List (List Char)) (p : ProcResult),
      srmArgs? cmd path = some args → run args = some p →
      p.returncode ≠ 0 →
      srmExecute run cmd path false = .error (.ioError (failureMsg args p))) := by
  constructor
  · intro run path p hrun _
    have hargs : srmArgs? "del".toList path
        = some ("lcg-del".toList :: "-b".toList :: "-D".toList
          :: "srmv2".toList :: path :: []) := rfl
    simp only [srmRemove, srmExecute, hargs, hrun]
    simp only [bne_self_eq_false, Bool.not_true, Bool.and_false,
      Bool.false_eq_true, if_false]
    rfl
  · intro run cmd path args p hargs hrun hnz
    simp only [srmExecute, hargs, hrun]
    simp [bne_iff_ne, hnz]

/-- C8 witness: a client stub exiting with status 1; `remove`
succeeds, unsafe `execute` of `ls` raises the formatted `IOError`. -/
theorem c8_witness :
    srmRemove (fun _ => some ⟨1, "o".toList, "e".toList⟩) "/x".toList
      = .ok ()
    ∧ srmExecute (fun _ => some ⟨1, "o".toList, "e".toList⟩)
      "ls".toList "/x".toList false
      = .error (.ioError (failureMsg ("lcg-ls".toList :: "-b".toList
        :: "-D".toList :: "srmv2".toList :: "/x".toList :: [])
        ⟨1, "o".toList, "e".toList⟩)) := by
  constructor
  · exact c8_safe_flag.1 (fun _ => some ⟨1, "o".toList, "e".toList⟩)
      "/x".toList ⟨1, "o".toList, "e".toList⟩ rfl (by decide)
  · exact c8_safe_flag.2 (fun _ => some ⟨1, "o".toList, "e".toList⟩)
      "ls".toList "/x".toList _ ⟨1, "o".toList, "e".toList⟩ rfl rfl (by decide)

/-- C10 witness: a listing function that answers an empty listing for
every path, so isfile is true and isdir false. -/
theorem c10_witness :
    chirpIsdir (fun _ => some []) "/d".toList = some false
    ∧ chirpIsfile (fun _ => some []) "/d".toList = some true := by
  exact (c10_chirp_isdir_isfile (fun _ => some []) "/d".toList [] rfl).2.2 rfl

end Lobster
